import Mathlib

/-!
Shallow embedding of the recurring-billing core of the telegabot repository:
`app/services/daily_subscription_service.py` (daily charge processor and
traffic-quota decay processor) and
`app/middlewares/subscription_checker.py` (subscription status middleware).

Database rows are plain structures; the database session is an explicit
`DBState` value threaded through the operations.  Store CRUD primitives that
live outside the provided sources are modelled from the specification and
marked as such in their doc comments.  External collaborators (device oracle,
debit primitive, unexpected per-unit exceptions) are modelled as explicit
environment parameters.
-/

namespace Telegabot

/-- Subscription status values of `app.database.models.SubscriptionStatus`
(`trial`, `active`, `expired`, `disabled`, `pending`). -/
inductive SubscriptionStatus where
  | trial
  | active
  | expired
  | disabled
  | pending
  deriving DecidableEq, Repr

/-- Transaction categories used by the daily charge processor
(`TransactionType.SUBSCRIPTION_PAYMENT`). -/
inductive TransactionType where
  | subscription_payment
  deriving DecidableEq, Repr

/-- Payment method recorded for daily charges (`PaymentMethod.MANUAL`). -/
inductive PaymentMethod where
  | manual
  deriving DecidableEq, Repr

/-- The fields of the `User` model read by the billing core: balance in
kopeks, the telegram chat id used for notifications, and the optional
provisioning identity (`remnawave_uuid`). -/
structure User where
  telegram_id : Nat
  balance_kopeks : Int
  remnawave_uuid : Option Nat
  deriving DecidableEq, Repr

/-- The fields of the `Tariff` model read by the billing core. -/
structure Tariff where
  daily_price_kopeks : Int
  traffic_limit_gb : Option Int
  deriving DecidableEq, Repr

/-- The fields of the `Subscription` model read or written by the billing
core and the status middleware.  `daily_enabled` is the per-day billing
cadence flag and `next_charge_at` the next-charge due timestamp used by the
due-subscription selection (both described in the specification's data
model). Timestamps are seconds as naturals. -/
structure Subscription where
  id : Nat
  user_id : Nat
  tariff_id : Option Nat
  status : SubscriptionStatus
  traffic_limit_gb : Int
  purchased_traffic_gb : Option Int
  traffic_reset_at : Option Nat
  daily_enabled : Bool
  next_charge_at : Nat
  last_charge_at : Option Nat
  end_date : Option Nat
  updated_at : Nat
  deriving DecidableEq, Repr

/-- One row of the `TrafficPurchase` model: a discrete time-bound
traffic-quota lot. -/
structure TrafficPurchase where
  id : Nat
  subscription_id : Nat
  traffic_gb : Int
  expires_at : Nat
  deriving DecidableEq, Repr

/-- One row of the `Transaction` model as created by the charge processor. -/
structure Transaction where
  user_id : Nat
  ttype : TransactionType
  amount_kopeks : Int
  payment_method : PaymentMethod
  deriving DecidableEq, Repr

/-- The database state seen by the billing core.  Users and tariffs are
looked up only by primary key, so they are modelled as maps from id;
subscriptions and traffic purchases are also enumerated, so they are kept
as row lists.  Transactions are the append-only ledger. -/
structure DBState where
  users : Nat → Option User
  tariffs : Nat → Option Tariff
  subscriptions : List Subscription
  purchases : List TrafficPurchase
  transactions : List Transaction

/-- Modelled from the spec: `get_user_by_id` (store CRUD primitive from
`app.database.crud.user`, not in the provided sources) resolves an account
by primary key. -/
def get_user_by_id (st : DBState) (uid : Nat) : Option User :=
  st.users uid

/-- Modelled from the spec: `get_tariff_by_id` (store CRUD primitive from
`app.database.crud.tariff`, not in the provided sources) resolves a tariff
by primary key. -/
def get_tariff_by_id (st : DBState) (tid : Nat) : Option Tariff :=
  st.tariffs tid

/-- SQLAlchemy query `select(Subscription).where(Subscription.id == subscription_id)`
followed by `scalar_one_or_none()` (lines 371-373 of
`daily_subscription_service.py`). -/
def getSubscriptionById (st : DBState) (sid : Nat) : Option Subscription :=
  st.subscriptions.find? (fun s => s.id == sid)

/-- Writing fields of the ORM subscription object with the given id. -/
def updateSubscription (st : DBState) (sid : Nat) (f : Subscription → Subscription) : DBState :=
  { st with subscriptions := st.subscriptions.map (fun s => if s.id == sid then f s else s) }

/-- Result of the external device-count query issued through
`RemnaWaveService`: either any failure (service unconfigured, timeout,
API error) or a reported total. -/
inductive OracleResult where
  | failure
  | reported (total : Int)
  deriving DecidableEq, Repr

/-- `_get_device_count` (lines 98-123): a user without `remnawave_uuid`
yields 1; any oracle failure yields 1; a reported total is floored to a
minimum of 1 via `max(1, device_count)`. -/
def get_device_count (user : User) (oracle : OracleResult) : Int :=
  match user.remnawave_uuid with
  | none => 1
  | some _ =>
    match oracle with
    | .failure => 1
    | .reported total => max 1 total

/-- External-environment parameters of one subscription's charge attempt:
the device oracle's answer, whether the atomic debit primitive succeeds,
whether `create_transaction` raises, and whether an unexpected exception is
raised before the unit does any work (propagating to the batch loop). -/
structure ChargeEnv where
  oracle : OracleResult
  debitOk : Bool
  txnExn : Bool
  unitExn : Bool

/-- The nominal environment: the debit primitive works and no unexpected
exception occurs. -/
def ChargeEnv.nominal (env : ChargeEnv) : Prop :=
  env.debitOk = true ∧ env.txnExn = false ∧ env.unitExn = false

/-- Modelled from the spec: `subtract_user_balance` (store CRUD primitive
from `app.database.crud.user`, not in the provided sources) is the Ledger
and Balance Store's atomic check-and-decrement debit; it signals failure
(`none`) on insufficient funds or any store error, and otherwise decrements
the account balance by exactly the requested amount. -/
def subtract_user_balance (st : DBState) (uid : Nat) (amount : Int) (ok : Bool) :
    Option DBState :=
  if ok then
    match st.users uid with
    | none => none
    | some u =>
      if amount ≤ u.balance_kopeks then
        some { st with
          users := fun i =>
            if i = uid then some { u with balance_kopeks := u.balance_kopeks - amount }
            else st.users i }
      else none
  else none

/-- Modelled from the spec: `create_transaction` (store CRUD primitive from
`app.database.crud.transaction`, not in the provided sources) appends an
immutable ledger entry describing the per-day payment. -/
def create_transaction (st : DBState) (uid : Nat) (amount : Int) : DBState :=
  { st with
    transactions := st.transactions ++
      [{ user_id := uid, ttype := .subscription_payment,
         amount_kopeks := amount, payment_method := .manual }] }

/-- One billing cycle of the per-day cadence, in seconds. -/
def daily_cycle_seconds : Nat := 86400

/-- Modelled from the spec: `update_daily_charge_time` (store CRUD
primitive from `app.database.crud.subscription`, not in the provided
sources): on a successful charge the subscription's `last_charge_at`
becomes now and its next-charge timestamp advances by one billing cycle. -/
def update_daily_charge_time (st : DBState) (sid : Nat) (now : Nat) : DBState :=
  updateSubscription st sid (fun s =>
    { s with last_charge_at := some now, next_charge_at := now + daily_cycle_seconds })

/-- Modelled from the spec: `suspend_daily_subscription_insufficient_balance`
(store CRUD primitive from `app.database.crud.subscription`, not in the
provided sources) sets the subscription status to the suspended/disabled
state (distinct from `expired`). -/
def suspend_daily_subscription_insufficient_balance (st : DBState) (sid : Nat) : DBState :=
  updateSubscription st sid (fun s => { s with status := .disabled })

/-- Possible recorded outcomes of `_process_single_charge` (the documented
`"skipped"` value is never returned by the function body). -/
inductive ChargeOutcome where
  | charged
  | suspended
  | error
  deriving DecidableEq, Repr

/-- `_process_single_charge` (lines 125-232).  `Except.error ()` models an
unexpected exception propagating out of the unit to the batch loop; all
other paths return a recorded outcome.  Notifications and the best-effort
panel sync have no effect on the database state and are omitted. -/
def process_single_charge (now : Nat) (st : DBState) (sub : Subscription)
    (env : ChargeEnv) : Except Unit (DBState × ChargeOutcome) :=
  if env.unitExn then .error () else
  match get_user_by_id st sub.user_id with
  | none => .ok (st, .error)
  | some user =>
    match sub.tariff_id.bind (get_tariff_by_id st) with
    | none => .ok (st, .error)
    | some tariff =>
      if tariff.daily_price_kopeks ≤ 0 then .ok (st, .error)
      else
        let device_count := get_device_count user env.oracle
        let total_daily_price := tariff.daily_price_kopeks * device_count
        if user.balance_kopeks < total_daily_price then
          .ok (suspend_daily_subscription_insufficient_balance st sub.id, .suspended)
        else
          match subtract_user_balance st sub.user_id total_daily_price env.debitOk with
          | none => .ok (st, .error)
          | some st1 =>
            if env.txnExn then .ok (st1, .error)
            else
              let st2 := create_transaction st1 sub.user_id total_daily_price
              let st3 := update_daily_charge_time st2 sub.id now
              .ok (st3, .charged)

/-- The aggregate counters returned by `process_daily_charges`. -/
structure ChargeStats where
  checked : Nat
  charged : Nat
  suspended : Nat
  errors : Nat
  deriving DecidableEq, Repr

/-- Modelled from the spec: `get_daily_subscriptions_for_charge` (store CRUD
primitive from `app.database.crud.subscription`, not in the provided
sources) selects the due subscriptions: per-day cadence flag set and
next-charge timestamp at or before the current time. -/
def get_daily_subscriptions_for_charge (st : DBState) (now : Nat) : List Subscription :=
  st.subscriptions.filter (fun s => s.daily_enabled && decide (s.next_charge_at ≤ now))

/-- The per-subscription loop of `process_daily_charges` (lines 73-87): each
unit yields exactly one counter increment; an exception from a unit is
caught, counted as an error, and the remaining units are still processed.
The environment is keyed by subscription id. -/
def chargeLoop (now : Nat) (env : Nat → ChargeEnv) :
    List Subscription → DBState → ChargeStats → DBState × ChargeStats
  | [], st, stats => (st, stats)
  | sub :: rest, st, stats =>
    match process_single_charge now st sub (env sub.id) with
    | .error _ => chargeLoop now env rest st { stats with errors := stats.errors + 1 }
    | .ok (st', .charged) =>
      chargeLoop now env rest st' { stats with charged := stats.charged + 1 }
    | .ok (st', .suspended) =>
      chargeLoop now env rest st' { stats with suspended := stats.suspended + 1 }
    | .ok (st', .error) =>
      chargeLoop now env rest st' { stats with errors := stats.errors + 1 }

/-- `process_daily_charges` (lines 53-96).  `selectFails` models the only
fatal condition: a failure to even query the due-subscription set, which
leaves the state unchanged and returns the zero counters. -/
def process_daily_charges (st : DBState) (now : Nat) (env : Nat → ChargeEnv)
    (selectFails : Bool) : DBState × ChargeStats :=
  if selectFails then (st, ⟨0, 0, 0, 0⟩)
  else
    let subs := get_daily_subscriptions_for_charge st now
    chargeLoop now env subs st ⟨subs.length, 0, 0, 0⟩

/-- Warnings the decay processor can log while reconciling one
subscription's quota: the defensive clamp of an over-large expired total
(line 385), the fallback to the tariff's base allotment when the computed
base limit is negative (line 403), and the critical guard for a new limit
below the base limit (line 422). -/
inductive ResetEvent where
  | clampWarning
  | baseFallbackWarning
  | criticalGuard
  deriving DecidableEq, Repr

/-- Lines 392-410 of `_reset_subscription_traffic`: the base limit is
`traffic_limit_gb - purchased_traffic_gb`; when the subscription has a
tariff that resolves and the base limit is negative, it falls back to the
tariff's configured base allotment with a warning; in every case the result
is finally clamped with `max(0, base_limit)`. -/
def computeBaseLimit (st : DBState) (sub : Subscription) (old_purchased : Int) :
    Int × List ResetEvent :=
  let base := sub.traffic_limit_gb - old_purchased
  match sub.tariff_id with
  | none => (max 0 base, [])
  | some tid =>
    match get_tariff_by_id st tid with
    | none => (max 0 base, [])
    | some tariff =>
      if base < 0 then (max 0 (tariff.traffic_limit_gb.getD 0), [.baseFallbackWarning])
      else (max 0 base, [])

/-- `min(p.expires_at for p in ps)` on a nonempty list. -/
def minExpiry : List TrafficPurchase → Nat
  | [] => 0
  | p :: rest => rest.foldl (fun a q => min a q.expires_at) p.expires_at

/-- `_reset_subscription_traffic` (lines 366-474): reconcile and shrink one
subscription's traffic quota after its expired lots.  Returns the updated
state together with the data-integrity warnings logged.  A missing
subscription row returns immediately with no state change.  The best-effort
panel sync and user notification have no effect on the database state and
are omitted. -/
def reset_subscription_traffic (now : Nat) (st : DBState) (subscription_id : Nat)
    (expired_purchases : List TrafficPurchase) : DBState × List ResetEvent :=
  match getSubscriptionById st subscription_id with
  | none => (st, [])
  | some sub =>
    let total_expired_raw : Int := (expired_purchases.map (fun p => p.traffic_gb)).sum
    let old_purchased : Int := sub.purchased_traffic_gb.getD 0
    let clampEvents :=
      if old_purchased < total_expired_raw then [ResetEvent.clampWarning] else []
    let total_expired_gb :=
      if old_purchased < total_expired_raw then old_purchased else total_expired_raw
    let baseResult := computeBaseLimit st sub old_purchased
    let base_limit := baseResult.1
    let st1 := { st with
      purchases := st.purchases.filter (fun p => !decide (p ∈ expired_purchases)) }
    let new_purchased := old_purchased - total_expired_gb
    let new_limit := base_limit + new_purchased
    let guardEvents := if new_limit < base_limit then [ResetEvent.criticalGuard] else []
    let new_limit2 := if new_limit < base_limit then base_limit else new_limit
    let new_purchased2 := if new_limit < base_limit then 0 else new_purchased
    let st2 := updateSubscription st1 subscription_id (fun s =>
      { s with traffic_limit_gb := max 0 new_limit2,
               purchased_traffic_gb := some (max 0 new_purchased2) })
    let remaining := st2.purchases.filter
      (fun p => p.subscription_id == subscription_id && decide (now < p.expires_at))
    let st3 := updateSubscription st2 subscription_id (fun s =>
      { s with traffic_reset_at := if remaining.isEmpty then none
                                   else some (minExpiry remaining),
               updated_at := now })
    (st3, clampEvents ++ baseResult.2 ++ guardEvents)

/-- The aggregate counters returned by `process_traffic_resets`. -/
structure ResetStats where
  checked : Nat
  reset : Nat
  errors : Nat
  deriving DecidableEq, Repr

/-- The `select(TrafficPurchase).where(TrafficPurchase.expires_at <= now)`
query of lines 330-335. -/
def expiredLots (st : DBState) (now : Nat) : List TrafficPurchase :=
  st.purchases.filter (fun p => decide (p.expires_at ≤ now))

/-- The grouping dict construction of lines 339-343: lots are grouped by
`subscription_id`, groups ordered by first occurrence, lots within a group
kept in selection order. -/
def addToGroups : List (Nat × List TrafficPurchase) → TrafficPurchase →
    List (Nat × List TrafficPurchase)
  | [], p => [(p.subscription_id, [p])]
  | g :: rest, p =>
    if g.1 = p.subscription_id then (g.1, g.2 ++ [p]) :: rest
    else g :: addToGroups rest p

/-- `subscriptions_to_update` of lines 339-343 as an ordered association
list. -/
def groupBySubscription (lots : List TrafficPurchase) : List (Nat × List TrafficPurchase) :=
  lots.foldl addToGroups []

/-- The per-group loop of `process_traffic_resets` (lines 346-355): each
group is processed in isolation; an exception (modelled by the environment,
keyed by subscription id) is caught and counted as one error, otherwise the
group's lot count is added to the `reset` counter. -/
def resetLoop (now : Nat) (env : Nat → Bool) :
    List (Nat × List TrafficPurchase) → DBState → ResetStats → DBState × ResetStats
  | [], st, stats => (st, stats)
  | g :: rest, st, stats =>
    if env g.1 then
      resetLoop now env rest st { stats with errors := stats.errors + 1 }
    else
      resetLoop now env rest (reset_subscription_traffic now st g.1 g.2).1
        { stats with reset := stats.reset + g.2.length }

/-- `process_traffic_resets` (lines 310-364).  `selectFails` models the only
fatal condition: a failure to even query the expired-lot set, which leaves
the state unchanged and returns the zero counters. -/
def process_traffic_resets (st : DBState) (now : Nat) (env : Nat → Bool)
    (selectFails : Bool) : DBState × ResetStats :=
  if selectFails then (st, ⟨0, 0, 0⟩)
  else
    let lots := expiredLots st now
    resetLoop now env (groupBySubscription lots) st ⟨lots.length, 0, 0⟩

/-- The middleware's view of the loaded database user (`db_user` in the
handler data): its id and eagerly loaded subscription. -/
structure MWUser where
  id : Nat
  subscription : Option Subscription
  deriving DecidableEq, Repr

/-- The handler `data` dict entries read by `SubscriptionStatusMiddleware`:
whether a database session was loaded, and the loaded user. -/
structure MWData where
  db : Bool
  db_user : Option MWUser
  deriving DecidableEq, Repr

/-- The expiry condition of lines 34-36 of `subscription_checker.py`:
status is `active`, `end_date` is set, and `end_date <= current_time`. -/
def shouldExpire (sub : Subscription) (now : Nat) : Bool :=
  decide (sub.status = SubscriptionStatus.active) &&
    (match sub.end_date with
     | none => false
     | some d => decide (d ≤ now))

/-- `SubscriptionStatusMiddleware.__call__` (lines 19-47): when db session,
user and subscription are all present and the expiry condition holds, the
subscription's status is set to `expired` and `updated_at` to the current
time; in every other case the data is left unchanged.  The returned flag
records that the wrapped handler is invoked: the handler call sits outside
the `try` block, and an exception from the status check (modelled by
`commitRaises`, e.g. a failing commit) is caught, so the handler is invoked
unconditionally. -/
def subscriptionStatusMiddleware (now : Nat) (data : MWData) (commitRaises : Bool) :
    MWData × Bool :=
  let _ := commitRaises
  let updated :=
    match data.db, data.db_user with
    | true, some u =>
      match u.subscription with
      | some sub =>
        if shouldExpire sub now then
          let sub2 := { sub with status := SubscriptionStatus.expired, updated_at := now }
          { data with db_user := some { u with subscription := some sub2 } }
        else data
      | none => data
    | _, _ => data
  (updated, true)

/-- The stored purchased-traffic field with the `or 0` default applied, as
the processor reads it (`subscription.purchased_traffic_gb or 0`,
line 381). -/
def purchasedD (sub : Subscription) : Int :=
  sub.purchased_traffic_gb.getD 0

/-- All stored subscriptions have nonnegative purchased traffic. -/
def allPurchasedNonneg (st : DBState) : Prop :=
  ∀ s ∈ st.subscriptions, 0 ≤ purchasedD s

/-- A sequence of decay passes: each entry is the current time, the
per-group exception environment and the selection-failure flag of one run
of `process_traffic_resets`. -/
def decaySequence (passes : List (Nat × ((Nat → Bool) × Bool))) (st : DBState) : DBState :=
  passes.foldl (fun s pr => (process_traffic_resets s pr.1 pr.2.1 pr.2.2).1) st

/-- The empty database, base value for the concrete test fixtures below. -/
def emptyDB : DBState where
  users := fun _ => none
  tariffs := fun _ => none
  subscriptions := []
  purchases := []
  transactions := []

/-- A default subscription row for the concrete test fixtures; individual
fixtures override the fields they exercise. -/
def baseSub : Subscription where
  id := 1
  user_id := 1
  tariff_id := none
  status := .active
  traffic_limit_gb := 0
  purchased_traffic_gb := none
  traffic_reset_at := none
  daily_enabled := false
  next_charge_at := 0
  last_charge_at := none
  end_date := none
  updated_at := 0

/-- Fixture: an account with 500 kopeks and a provisioning identity. -/
def u_c1 : User where
  telegram_id := 77
  balance_kopeks := 500
  remnawave_uuid := some 3

/-- Fixture: a tariff priced at 100 kopeks per device per day. -/
def t_c1 : Tariff where
  daily_price_kopeks := 100
  traffic_limit_gb := none

/-- Fixture: a due daily subscription owned by user 1 on tariff 2. -/
def sub_c1 : Subscription :=
  { baseSub with id := 10, user_id := 1, tariff_id := some 2,
                 daily_enabled := true, next_charge_at := 50 }

/-- Fixture: database holding `u_c1`, `t_c1` and `sub_c1`. -/
def st_c1 : DBState :=
  { emptyDB with
    users := fun i => if i = 1 then some u_c1 else none,
    tariffs := fun i => if i = 2 then some t_c1 else none,
    subscriptions := [sub_c1] }

/-- Fixture: a nominal charge environment reporting 2 devices. -/
def env_c1 : ChargeEnv where
  oracle := .reported 2
  debitOk := true
  txnExn := false
  unitExn := false

/-- Fixture: a subscription with limit 50 and purchased 20. -/
def sub_c2 : Subscription :=
  { baseSub with traffic_limit_gb := 50, purchased_traffic_gb := some 20,
                 traffic_reset_at := some 90 }

/-- Fixture: a 20 GB lot of subscription 1 expiring at time 90. -/
def lot_c2 : TrafficPurchase where
  id := 5
  subscription_id := 1
  traffic_gb := 20
  expires_at := 90

/-- Fixture: database for the decay-invariant witness. -/
def st_c2 : DBState :=
  { emptyDB with subscriptions := [sub_c2], purchases := [lot_c2] }

/-- Fixture: database of the spec's scenario C (limit 50, purchased 20,
one 20 GB expired lot). -/
def st_c3 : DBState := st_c2

/-- Fixture: database of the spec's scenario D (stored purchased 10,
inconsistent with the 20 GB lot). -/
def st_c3d : DBState :=
  { emptyDB with
    subscriptions := [{ sub_c2 with purchased_traffic_gb := some 10 }],
    purchases := [lot_c2] }

/-- Fixture: an orphan 20 GB expired lot whose subscription row does not
exist. -/
def st_c5 : DBState :=
  { emptyDB with purchases := [lot_c2] }

/-- Fixture: a subscription with a negative computed base limit
(limit 0, purchased 5) and no tariff reference. -/
def sub_c8 : Subscription :=
  { sub_c2 with traffic_limit_gb := 0, purchased_traffic_gb := some 5 }

/-- Fixture: database holding `sub_c8` and one expired lot. -/
def st_c8 : DBState :=
  { emptyDB with subscriptions := [sub_c8], purchases := [lot_c2] }

/-- Fixture: a tariff with a configured base allotment of 7 GB. -/
def t_c8w : Tariff where
  daily_price_kopeks := 0
  traffic_limit_gb := some 7

/-- Fixture: a subscription with a negative computed base limit referencing
tariff 2. -/
def sub_c8w : Subscription :=
  { sub_c2 with tariff_id := some 2, traffic_limit_gb := 0, purchased_traffic_gb := some 5 }

/-- Fixture: same negative base limit but with a resolvable tariff whose
base allotment is 7 GB. -/
def st_c8w : DBState :=
  { emptyDB with
    tariffs := fun i => if i = 2 then some t_c8w else none,
    subscriptions := [sub_c8w],
    purchases := [lot_c2] }

/-- Fixture: middleware data holding a user with an active subscription
that ended at time 50. -/
def data_c10 : MWData where
  db := true
  db_user := some { id := 4, subscription := some { baseSub with end_date := some 50 } }

/-- The data value produced by the middleware when it expires the user's
subscription: status set to `expired` and `updated_at` set to the current
time, everything else unchanged. -/
def mwExpired (data : MWData) (u : MWUser) (sub : Subscription) (now : Nat) : MWData :=
  let sub2 := { sub with status := SubscriptionStatus.expired, updated_at := now }
  { data with db_user := some { u with subscription := some sub2 } }

/-- The database state after the modelled debit has decremented the balance
of account `uid` (resolved to `u`) by `amount`. -/
def debitedState (st : DBState) (uid : Nat) (amount : Int) (u : User) : DBState :=
  { st with users := fun i =>
      if i = uid then some { u with balance_kopeks := u.balance_kopeks - amount }
      else st.users i }

/-- Total size of a lot grouping: the number of lots over all groups. -/
def sumSizes (gs : List (Nat × List TrafficPurchase)) : Nat :=
  (gs.map (fun g => g.2.length)).sum

/-- Well-formedness of a lot grouping: groups are nonempty and every lot in
a group carries the group's subscription id. -/
def GroupsWF (gs : List (Nat × List TrafficPurchase)) : Prop :=
  ∀ g ∈ gs, g.2 ≠ [] ∧ ∀ q ∈ g.2, q.subscription_id = g.1

theorem find_map_of_pred {α : Type} (g : α → α) (p : α → Bool)
    (hp : ∀ a, p (g a) = p a) :
    ∀ l : List α, (l.map g).find? p = (l.find? p).map g := by
  intro l
  induction l with
  | nil => rfl
  | cons a rest ih =>
    by_cases h : p a = true
    · simp [List.find?_cons, hp a, h]
    · rw [Bool.not_eq_true] at h
      simp [List.find?_cons, hp a, h, ih]

theorem getSubscriptionById_update (st : DBState) (sid k : Nat)
    (f : Subscription → Subscription) (hf : ∀ s, (f s).id = s.id) :
    getSubscriptionById (updateSubscription st sid f) k =
      (getSubscriptionById st k).map (fun s => if s.id == sid then f s else s) := by
  unfold getSubscriptionById updateSubscription
  apply find_map_of_pred
  intro a
  by_cases h : a.id = sid
  · simp [h, hf a]
  · simp [h]

theorem getSubscriptionById_mem (st : DBState) (k : Nat) (sub : Subscription)
    (h : getSubscriptionById st k = some sub) : sub.id = k := by
  unfold getSubscriptionById at h
  have := List.find?_some h
  simpa using this

theorem update_users (st : DBState) (sid : Nat) (f : Subscription → Subscription) :
    (updateSubscription st sid f).users = st.users := rfl

theorem update_purchases (st : DBState) (sid : Nat) (f : Subscription → Subscription) :
    (updateSubscription st sid f).purchases = st.purchases := rfl

theorem update_transactions (st : DBState) (sid : Nat) (f : Subscription → Subscription) :
    (updateSubscription st sid f).transactions = st.transactions := rfl

theorem computeBaseLimit_nonneg (st : DBState) (sub : Subscription) (old_purchased : Int) :
    0 ≤ (computeBaseLimit st sub old_purchased).1 := by
  unfold computeBaseLimit
  cases sub.tariff_id with
  | none => simp
  | some tid =>
    cases h2 : get_tariff_by_id st tid with
    | none => simp [h2]
    | some tariff =>
      by_cases h : sub.traffic_limit_gb - old_purchased < 0 <;> simp [h2, h]

theorem reset_none (now : Nat) (st : DBState) (sid : Nat) (ps : List TrafficPurchase)
    (h : getSubscriptionById st sid = none) :
    reset_subscription_traffic now st sid ps = (st, []) := by
  unfold reset_subscription_traffic
  rw [h]

theorem getSubscriptionById_update_update (st : DBState) (sid : Nat) (sub : Subscription)
    (f1 f2 : Subscription → Subscription)
    (hf1 : ∀ s, (f1 s).id = s.id) (hf2 : ∀ s, (f2 s).id = s.id)
    (h : getSubscriptionById st sid = some sub) :
    getSubscriptionById (updateSubscription (updateSubscription st sid f1) sid f2) sid =
      some (f2 (f1 sub)) := by
  have hid : sub.id = sid := getSubscriptionById_mem st sid sub h
  rw [getSubscriptionById_update _ sid sid f2 hf2, getSubscriptionById_update _ sid sid f1 hf1, h]
  simp [hid, hf1 sub]

theorem reset_spec (now : Nat) (st : DBState) (sid : Nat) (ps : List TrafficPurchase)
    (sub : Subscription) (h : getSubscriptionById st sid = some sub) :
    ∃ sub',
      getSubscriptionById (reset_subscription_traffic now st sid ps).1 sid = some sub' ∧
      sub'.purchased_traffic_gb =
        some (sub.purchased_traffic_gb.getD 0 -
          min ((ps.map (fun p => p.traffic_gb)).sum) (sub.purchased_traffic_gb.getD 0)) ∧
      sub'.traffic_limit_gb =
        (computeBaseLimit st sub (sub.purchased_traffic_gb.getD 0)).1 +
          (sub.purchased_traffic_gb.getD 0 -
            min ((ps.map (fun p => p.traffic_gb)).sum) (sub.purchased_traffic_gb.getD 0)) ∧
      sub'.id = sub.id ∧
      (reset_subscription_traffic now st sid ps).1.purchases =
        st.purchases.filter (fun p => !decide (p ∈ ps)) ∧
      (reset_subscription_traffic now st sid ps).2 =
        (if sub.purchased_traffic_gb.getD 0 < (ps.map (fun p => p.traffic_gb)).sum
         then [ResetEvent.clampWarning] else []) ++
          (computeBaseLimit st sub (sub.purchased_traffic_gb.getD 0)).2 := by
  have hid : sub.id = sid := getSubscriptionById_mem st sid sub h
  have hbase : 0 ≤ (computeBaseLimit st sub (sub.purchased_traffic_gb.getD 0)).1 :=
    computeBaseLimit_nonneg st sub (sub.purchased_traffic_gb.getD 0)
  unfold reset_subscription_traffic
  rw [h]
  simp only []
  set T := (ps.map (fun p => p.traffic_gb)).sum with hT
  set p0 := sub.purchased_traffic_gb.getD 0 with hp0
  set B := (computeBaseLimit st sub p0).1 with hB
  have htot : (if p0 < T then p0 else T) = min T p0 := by
    by_cases hc : p0 < T <;> simp [hc] <;> omega
  rw [htot]
  have hnp : 0 ≤ p0 - min T p0 := by omega
  have hguard : ¬ (B + (p0 - min T p0) < B) := by omega
  rw [if_neg hguard, if_neg hguard, if_neg hguard]
  have hmax1 : max 0 (B + (p0 - min T p0)) = B + (p0 - min T p0) := by omega
  have hmax2 : max 0 (p0 - min T p0) = p0 - min T p0 := by omega
  rw [hmax1, hmax2]
  refine ⟨_, getSubscriptionById_update_update _ sid sub _ _
    (fun _ => rfl) (fun _ => rfl) h, rfl, rfl, rfl, rfl, by simp⟩

theorem reset_ids (now : Nat) (st : DBState) (sid : Nat) (ps : List TrafficPurchase) :
    (reset_subscription_traffic now st sid ps).1.subscriptions.map (fun s => s.id) =
      st.subscriptions.map (fun s => s.id) := by
  cases h : getSubscriptionById st sid with
  | none => rw [reset_none now st sid ps h]
  | some sub =>
    unfold reset_subscription_traffic
    rw [h]
    simp only [updateSubscription, List.map_map]
    apply List.map_congr_left
    intro s _
    by_cases hs : s.id = sid <;> simp [hs]

theorem getSubscriptionById_update_update_none (st : DBState) (sid k : Nat)
    (f1 f2 : Subscription → Subscription)
    (hf1 : ∀ s, (f1 s).id = s.id) (hf2 : ∀ s, (f2 s).id = s.id) :
    (getSubscriptionById (updateSubscription (updateSubscription st sid f1) sid f2) k = none) ↔
      (getSubscriptionById st k = none) := by
  rw [getSubscriptionById_update _ sid k f2 hf2, getSubscriptionById_update _ sid k f1 hf1]
  cases getSubscriptionById st k <;> simp

theorem reset_none_iff (now : Nat) (st : DBState) (sid k : Nat) (ps : List TrafficPurchase) :
    getSubscriptionById (reset_subscription_traffic now st sid ps).1 k = none ↔
      getSubscriptionById st k = none := by
  cases h : getSubscriptionById st sid with
  | none => rw [reset_none now st sid ps h]
  | some sub =>
    unfold reset_subscription_traffic
    rw [h]
    simp only []
    exact getSubscriptionById_update_update_none _ sid k _ _ (fun _ => rfl) (fun _ => rfl)

theorem reset_purchases_subset (now : Nat) (st : DBState) (sid : Nat)
    (ps : List TrafficPurchase) (q : TrafficPurchase)
    (hq : q ∈ (reset_subscription_traffic now st sid ps).1.purchases) :
    q ∈ st.purchases := by
  cases h : getSubscriptionById st sid with
  | none => rw [reset_none now st sid ps h] at hq; exact hq
  | some sub =>
    unfold reset_subscription_traffic at hq
    rw [h] at hq
    simp only [updateSubscription] at hq
    exact (List.mem_filter.mp hq).1

theorem reset_deletes (now : Nat) (st : DBState) (sid : Nat) (ps : List TrafficPurchase)
    (sub : Subscription) (h : getSubscriptionById st sid = some sub)
    (q : TrafficPurchase) (hq : q ∈ ps) :
    q ∉ (reset_subscription_traffic now st sid ps).1.purchases := by
  unfold reset_subscription_traffic
  rw [h]
  simp only [updateSubscription]
  intro hmem
  have := (List.mem_filter.mp hmem).2
  simp [hq] at this

theorem reset_keeps (now : Nat) (st : DBState) (sid : Nat) (ps : List TrafficPurchase)
    (q : TrafficPurchase) (hq : q ∉ ps) (hmem : q ∈ st.purchases) :
    q ∈ (reset_subscription_traffic now st sid ps).1.purchases := by
  cases h : getSubscriptionById st sid with
  | none => rw [reset_none now st sid ps h]; exact hmem
  | some sub =>
    unfold reset_subscription_traffic
    rw [h]
    simp only [updateSubscription]
    exact List.mem_filter.mpr ⟨hmem, by simp [hq]⟩

theorem addToGroups_sumSizes (p : TrafficPurchase) :
    ∀ gs, sumSizes (addToGroups gs p) = sumSizes gs + 1 := by
  intro gs
  induction gs with
  | nil => simp [addToGroups, sumSizes]
  | cons g rest ih =>
    by_cases h : g.1 = p.subscription_id
    · simp [addToGroups, h, sumSizes]
      omega
    · simp only [addToGroups, if_neg h, sumSizes, List.map_cons, List.sum_cons]
      have := ih
      simp only [sumSizes] at this
      omega

theorem groupBy_sumSizes_aux (lots : List TrafficPurchase) :
    ∀ gs, sumSizes (lots.foldl addToGroups gs) = sumSizes gs + lots.length := by
  induction lots with
  | nil => intro gs; simp
  | cons p rest ih =>
    intro gs
    simp only [List.foldl_cons, List.length_cons]
    rw [ih, addToGroups_sumSizes]
    omega

theorem groupBy_sumSizes (lots : List TrafficPurchase) :
    sumSizes (groupBySubscription lots) = lots.length := by
  unfold groupBySubscription
  rw [groupBy_sumSizes_aux]
  simp [sumSizes]

theorem addToGroups_wf (p : TrafficPurchase) :
    ∀ gs, GroupsWF gs → GroupsWF (addToGroups gs p) := by
  intro gs
  induction gs with
  | nil =>
    intro _ g hg
    simp [addToGroups] at hg
    subst hg
    refine ⟨by simp, ?_⟩
    intro q hq
    simp at hq
    subst hq
    rfl
  | cons g0 rest ih =>
    intro hwf g hg
    by_cases h : g0.1 = p.subscription_id
    · simp only [addToGroups, if_pos h] at hg
      rcases List.mem_cons.mp hg with hg | hg
      · subst hg
        refine ⟨by simp, ?_⟩
        intro q hq
        rcases List.mem_append.mp hq with hq | hq
        · exact (hwf g0 (List.mem_cons_self _ _)).2 q hq
        · simp at hq
          subst hq
          exact h.symm
      · exact hwf g (List.mem_cons_of_mem _ hg)
    · simp only [addToGroups, if_neg h] at hg
      rcases List.mem_cons.mp hg with hg | hg
      · subst hg
        exact hwf g (List.mem_cons_self _ _)
      · exact ih (fun g' hg' => hwf g' (List.mem_cons_of_mem _ hg')) g hg

theorem groupBy_wf (lots : List TrafficPurchase) : GroupsWF (groupBySubscription lots) := by
  unfold groupBySubscription
  have : ∀ gs, GroupsWF gs → GroupsWF (lots.foldl addToGroups gs) := by
    induction lots with
    | nil => intro gs h; exact h
    | cons p rest ih =>
      intro gs h
      exact ih _ (addToGroups_wf p gs h)
  apply this
  intro g hg
  simp at hg

theorem addToGroups_mem (p q : TrafficPurchase) :
    ∀ gs, (∃ g ∈ addToGroups gs p, q ∈ g.2) ↔ (∃ g ∈ gs, q ∈ g.2) ∨ q = p := by
  intro gs
  induction gs with
  | nil =>
    constructor
    · intro ⟨g, hg, hq⟩
      simp [addToGroups] at hg
      subst hg
      simp at hq
      exact Or.inr hq
    · intro h
      rcases h with ⟨g, hg, _⟩ | h
      · simp at hg
      · exact ⟨(p.subscription_id, [p]), by simp [addToGroups], by simp [h]⟩
  | cons g0 rest ih =>
    by_cases h : g0.1 = p.subscription_id
    · simp only [addToGroups, if_pos h]
      constructor
      · intro ⟨g, hg, hq⟩
        rcases List.mem_cons.mp hg with hg | hg
        · subst hg
          rcases List.mem_append.mp hq with hq | hq
          · exact Or.inl ⟨g0, (List.mem_cons_self _ _), hq⟩
          · simp at hq
            exact Or.inr hq
        · exact Or.inl ⟨g, List.mem_cons_of_mem _ hg, hq⟩
      · intro hh
        rcases hh with ⟨g, hg, hq⟩ | hh
        · rcases List.mem_cons.mp hg with hg | hg
          · subst hg
            exact ⟨_, List.mem_cons_self _ _, by simp [hq]⟩
          · exact ⟨g, List.mem_cons_of_mem _ hg, hq⟩
        · exact ⟨_, List.mem_cons_self _ _, by simp [hh]⟩
    · simp only [addToGroups, if_neg h]
      constructor
      · intro ⟨g, hg, hq⟩
        rcases List.mem_cons.mp hg with hg | hg
        · subst hg
          exact Or.inl ⟨g, (List.mem_cons_self _ _), hq⟩
        · rcases ih.mp ⟨g, hg, hq⟩ with ⟨g', hg', hq'⟩ | hh
          · exact Or.inl ⟨g', List.mem_cons_of_mem _ hg', hq'⟩
          · exact Or.inr hh
      · intro hh
        rcases hh with ⟨g, hg, hq⟩ | hh
        · rcases List.mem_cons.mp hg with hg | hg
          · subst hg
            exact ⟨g, (List.mem_cons_self _ _), hq⟩
          · rcases ih.mpr (Or.inl ⟨g, hg, hq⟩) with ⟨g', hg', hq'⟩
            exact ⟨g', List.mem_cons_of_mem _ hg', hq'⟩
        · rcases ih.mpr (Or.inr hh) with ⟨g', hg', hq'⟩
          exact ⟨g', List.mem_cons_of_mem _ hg', hq'⟩

theorem groupBy_mem (lots : List TrafficPurchase) (q : TrafficPurchase) :
    (∃ g ∈ groupBySubscription lots, q ∈ g.2) ↔ q ∈ lots := by
  unfold groupBySubscription
  have key : ∀ (l : List TrafficPurchase) (gs : List (Nat × List TrafficPurchase)),
      (∃ g ∈ l.foldl addToGroups gs, q ∈ g.2) ↔ (∃ g ∈ gs, q ∈ g.2) ∨ q ∈ l := by
    intro l
    induction l with
    | nil => intro gs; simp
    | cons p rest ih =>
      intro gs
      simp only [List.foldl_cons]
      rw [ih, addToGroups_mem]
      constructor
      · rintro ((hg | hp) | hr)
        · exact Or.inl hg
        · exact Or.inr (by simp [hp])
        · exact Or.inr (List.mem_cons_of_mem _ hr)
      · rintro (hg | hpr)
        · exact Or.inl (Or.inl hg)
        · rcases List.mem_cons.mp hpr with hp | hr
          · exact Or.inl (Or.inr hp)
          · exact Or.inr hr
  rw [key]
  simp

theorem resetLoop_stats (now : Nat) (env : Nat → Bool) :
    ∀ (gs : List (Nat × List TrafficPurchase)) (st : DBState) (c r e : Nat),
      (resetLoop now env gs st ⟨c, r, e⟩).2 =
        ⟨c, r + sumSizes (gs.filter (fun g => !env g.1)),
            e + (gs.filter (fun g => env g.1)).length⟩ := by
  intro gs
  induction gs with
  | nil => intro st c r e; simp [resetLoop, sumSizes]
  | cons g rest ih =>
    intro st c r e
    by_cases h : env g.1
    · simp [resetLoop, h, ih, List.filter_cons, sumSizes, ResetStats.mk.injEq]
      omega
    · have h2 : env g.1 = false := by simpa using h
      simp [resetLoop, h2, ih, List.filter_cons, sumSizes, ResetStats.mk.injEq]
      omega

theorem resetLoop_none_iff (now : Nat) (env : Nat → Bool) (k : Nat) :
    ∀ (gs : List (Nat × List TrafficPurchase)) (st : DBState) (stats : ResetStats),
      (getSubscriptionById (resetLoop now env gs st stats).1 k = none ↔
        getSubscriptionById st k = none) := by
  intro gs
  induction gs with
  | nil => intro st stats; simp [resetLoop]
  | cons g rest ih =>
    intro st stats
    by_cases h : env g.1
    · simp only [resetLoop, if_pos h]
      exact ih st _
    · have h2 : env g.1 = false := by simpa using h
      simp only [resetLoop, h2, Bool.false_eq_true, if_false]
      rw [ih]
      exact reset_none_iff now st g.1 k g.2

theorem resetLoop_purchases_subset (now : Nat) (env : Nat → Bool) (q : TrafficPurchase) :
    ∀ (gs : List (Nat × List TrafficPurchase)) (st : DBState) (stats : ResetStats),
      q ∈ (resetLoop now env gs st stats).1.purchases → q ∈ st.purchases := by
  intro gs
  induction gs with
  | nil => intro st stats h; simpa [resetLoop] using h
  | cons g rest ih =>
    intro st stats h
    by_cases he : env g.1
    · simp only [resetLoop, if_pos he] at h
      exact ih st _ h
    · have h2 : env g.1 = false := by simpa using he
      simp only [resetLoop, h2, Bool.false_eq_true, if_false] at h
      exact reset_purchases_subset now st g.1 g.2 q (ih _ _ h)

theorem resetLoop_keeps (now : Nat) (env : Nat → Bool) (q : TrafficPurchase) :
    ∀ (gs : List (Nat × List TrafficPurchase)) (st : DBState) (stats : ResetStats),
      (∀ g ∈ gs, getSubscriptionById st g.1 = none ∨ q ∉ g.2) →
      q ∈ st.purchases →
      q ∈ (resetLoop now env gs st stats).1.purchases := by
  intro gs
  induction gs with
  | nil => intro st stats _ hq; simpa [resetLoop] using hq
  | cons g rest ih =>
    intro st stats hgs hq
    by_cases he : env g.1
    · simp only [resetLoop, if_pos he]
      exact ih st _ (fun g' hg' => hgs g' (List.mem_cons_of_mem _ hg')) hq
    · have h2 : env g.1 = false := by simpa using he
      simp only [resetLoop, h2, Bool.false_eq_true, if_false]
      have hmem2 : q ∈ (reset_subscription_traffic now st g.1 g.2).1.purchases := by
        rcases hgs g (List.mem_cons_self _ _) with hnone | hnq
        · rw [reset_none now st g.1 g.2 hnone]
          exact hq
        · exact reset_keeps now st g.1 g.2 q hnq hq
      apply ih _ _ _ hmem2
      intro g' hg'
      rcases hgs g' (List.mem_cons_of_mem _ hg') with hnone | hnq
      · exact Or.inl ((reset_none_iff now st g.1 g'.1 g.2).mpr hnone)
      · exact Or.inr hnq

theorem resetLoop_deletes (now : Nat) (env : Nat → Bool) (henv : ∀ k, env k = false)
    (q : TrafficPurchase) :
    ∀ (gs : List (Nat × List TrafficPurchase)) (st : DBState) (stats : ResetStats)
      (sid : Nat) (ps : List TrafficPurchase),
      (sid, ps) ∈ gs → ¬ getSubscriptionById st sid = none → q ∈ ps →
      q ∉ (resetLoop now env gs st stats).1.purchases := by
  intro gs
  induction gs with
  | nil => intro st stats sid ps hmem; simp at hmem
  | cons g rest ih =>
    intro st stats sid ps hmem hsub hq
    simp only [resetLoop, henv g.1, Bool.false_eq_true, if_false]
    rcases List.mem_cons.mp hmem with hg | hg
    · subst hg
      intro hcontra
      rcases Option.ne_none_iff_exists'.mp hsub with ⟨sub, hsome⟩
      have hdel := reset_deletes now st sid ps sub hsome q hq
      exact hdel (resetLoop_purchases_subset now env q rest _ _ hcontra)
    · apply ih _ _ sid ps hg _ hq
      intro hnone
      exact hsub ((reset_none_iff now st g.1 sid g.2).mp hnone)

theorem resetLoop_all_orphans (now : Nat) (env : Nat → Bool) :
    ∀ (gs : List (Nat × List TrafficPurchase)) (st : DBState) (stats : ResetStats),
      (∀ g ∈ gs, getSubscriptionById st g.1 = none) →
      (resetLoop now env gs st stats).1 = st := by
  intro gs
  induction gs with
  | nil => intro st stats _; rfl
  | cons g rest ih =>
    intro st stats hgs
    by_cases he : env g.1
    · simp only [resetLoop, if_pos he]
      exact ih st _ (fun g' hg' => hgs g' (List.mem_cons_of_mem _ hg'))
    · have h2 : env g.1 = false := by simpa using he
      simp only [resetLoop, h2, Bool.false_eq_true, if_false]
      rw [reset_none now st g.1 g.2 (hgs g (List.mem_cons_self _ _))]
      exact ih st _ (fun g' hg' => hgs g' (List.mem_cons_of_mem _ hg'))

theorem sumSizes_filter_split (p : (Nat × List TrafficPurchase) → Bool) :
    ∀ gs, sumSizes gs = sumSizes (gs.filter p) + sumSizes (gs.filter (fun g => !p g)) := by
  intro gs
  induction gs with
  | nil => simp [sumSizes]
  | cons g rest ih =>
    by_cases h : p g
    · simp only [sumSizes, List.filter_cons, h, List.map_cons, List.sum_cons, Bool.not_true,
        if_true]
      simp only [sumSizes] at ih
      simp [ih]
      omega
    · have h2 : p g = false := by simpa using h
      simp only [sumSizes, List.filter_cons, h2, List.map_cons, List.sum_cons, Bool.not_false]
      simp only [sumSizes] at ih
      simp [ih]
      omega

theorem chargeLoop_counts (now : Nat) (env : Nat → ChargeEnv) :
    ∀ (subs : List Subscription) (st : DBState) (c a b e : Nat),
      (chargeLoop now env subs st ⟨c, a, b, e⟩).2.checked = c ∧
      (chargeLoop now env subs st ⟨c, a, b, e⟩).2.charged +
          (chargeLoop now env subs st ⟨c, a, b, e⟩).2.suspended +
          (chargeLoop now env subs st ⟨c, a, b, e⟩).2.errors =
        a + b + e + subs.length := by
  intro subs
  induction subs with
  | nil => intro st c a b e; simp [chargeLoop]
  | cons sub rest ih =>
    intro st c a b e
    cases hres : process_single_charge now st sub (env sub.id) with
    | error u =>
      simp only [chargeLoop, hres]
      have := ih st c a b (e + 1)
      refine ⟨this.1, ?_⟩
      rw [this.2]
      simp
      omega
    | ok pr =>
      rcases pr with ⟨st', outcome⟩
      cases outcome with
      | charged =>
        simp only [chargeLoop, hres]
        have := ih st' c (a + 1) b e
        refine ⟨this.1, ?_⟩
        rw [this.2]
        simp
        omega
      | suspended =>
        simp only [chargeLoop, hres]
        have := ih st' c a (b + 1) e
        refine ⟨this.1, ?_⟩
        rw [this.2]
        simp
        omega
      | error =>
        simp only [chargeLoop, hres]
        have := ih st' c a b (e + 1)
        refine ⟨this.1, ?_⟩
        rw [this.2]
        simp
        omega

theorem reset_preserves_nonneg (now : Nat) (st : DBState) (sid : Nat)
    (ps : List TrafficPurchase) (h : allPurchasedNonneg st) :
    allPurchasedNonneg (reset_subscription_traffic now st sid ps).1 := by
  cases hs : getSubscriptionById st sid with
  | none => rw [reset_none now st sid ps hs]; exact h
  | some sub =>
    unfold reset_subscription_traffic
    rw [hs]
    simp only []
    intro s hmem
    simp only [updateSubscription, List.mem_map] at hmem
    obtain ⟨s1, ⟨s0, hs0, rfl⟩, rfl⟩ := hmem
    have h0 := h s0 hs0
    simp only [purchasedD] at h0 ⊢
    split <;> (try split) <;> first | exact h0 | simp

theorem resetLoop_preserves_nonneg (now : Nat) (env : Nat → Bool) :
    ∀ (gs : List (Nat × List TrafficPurchase)) (st : DBState) (stats : ResetStats),
      allPurchasedNonneg st → allPurchasedNonneg (resetLoop now env gs st stats).1 := by
  intro gs
  induction gs with
  | nil => intro st stats h; exact h
  | cons g rest ih =>
    intro st stats h
    by_cases he : env g.1
    · simp only [resetLoop, if_pos he]
      exact ih st _ h
    · have h2 : env g.1 = false := by simpa using he
      simp only [resetLoop, h2, Bool.false_eq_true, if_false]
      exact ih _ _ (reset_preserves_nonneg now st g.1 g.2 h)

theorem process_traffic_resets_preserves_nonneg (st : DBState) (now : Nat)
    (env : Nat → Bool) (selectFails : Bool) (h : allPurchasedNonneg st) :
    allPurchasedNonneg (process_traffic_resets st now env selectFails).1 := by
  unfold process_traffic_resets
  by_cases hf : selectFails
  · simp only [if_pos hf]
    exact h
  · simp only [if_neg hf]
    exact resetLoop_preserves_nonneg now env _ st _ h

theorem decaySequence_preserves_nonneg (passes : List (Nat × ((Nat → Bool) × Bool))) :
    ∀ st : DBState, allPurchasedNonneg st → allPurchasedNonneg (decaySequence passes st) := by
  induction passes with
  | nil => intro st h; exact h
  | cons pr rest ih =>
    intro st h
    exact ih _ (process_traffic_resets_preserves_nonneg st pr.1 pr.2.1 pr.2.2 h)

theorem subtract_user_balance_spec (st : DBState) (uid : Nat) (amount : Int) (ok : Bool)
    (st1 : DBState) (h : subtract_user_balance st uid amount ok = some st1) :
    ok = true ∧ ∃ u, st.users uid = some u ∧ amount ≤ u.balance_kopeks ∧
      st1 = debitedState st uid amount u := by
  unfold subtract_user_balance at h
  by_cases hok : ok = true
  · subst hok
    simp only [if_true] at h
    cases hu : st.users uid with
    | none => rw [hu] at h; simp at h
    | some u =>
      rw [hu] at h
      simp only [] at h
      by_cases hb : amount ≤ u.balance_kopeks
      · rw [if_pos hb] at h
        refine ⟨rfl, u, rfl, hb, ?_⟩
        exact (Option.some_injective _ h).symm
      · rw [if_neg hb] at h
        simp at h
  · have : ok = false := by simpa using hok
    subst this
    simp at h

theorem charged_inversion (now : Nat) (st : DBState) (sub : Subscription) (env : ChargeEnv)
    (st' : DBState) (h : process_single_charge now st sub env = .ok (st', .charged)) :
    ∃ u t, get_user_by_id st sub.user_id = some u ∧
      sub.tariff_id.bind (get_tariff_by_id st) = some t ∧
      0 < t.daily_price_kopeks ∧
      ¬ u.balance_kopeks < t.daily_price_kopeks * get_device_count u env.oracle ∧
      env.txnExn = false ∧
      st' = update_daily_charge_time
        (create_transaction
          (debitedState st sub.user_id
            (t.daily_price_kopeks * get_device_count u env.oracle) u)
          sub.user_id (t.daily_price_kopeks * get_device_count u env.oracle))
        sub.id now := by
  unfold process_single_charge at h
  by_cases he : env.unitExn
  · simp [he] at h
  · rw [if_neg he] at h
    cases hu : get_user_by_id st sub.user_id with
    | none => rw [hu] at h; simp at h
    | some u =>
      rw [hu] at h
      cases ht : sub.tariff_id.bind (get_tariff_by_id st) with
      | none => rw [ht] at h; simp at h
      | some t =>
        rw [ht] at h
        simp only [] at h
        by_cases hp : t.daily_price_kopeks ≤ 0
        · rw [if_pos hp] at h; simp at h
        · rw [if_neg hp] at h
          by_cases hb : u.balance_kopeks < t.daily_price_kopeks * get_device_count u env.oracle
          · rw [if_pos hb] at h; simp at h
          · rw [if_neg hb] at h
            cases hsb : subtract_user_balance st sub.user_id
                (t.daily_price_kopeks * get_device_count u env.oracle) env.debitOk with
            | none => rw [hsb] at h; simp at h
            | some st1 =>
              rw [hsb] at h
              simp only [] at h
              by_cases htx : env.txnExn
              · rw [if_pos htx] at h; simp at h
              · rw [if_neg htx] at h
                simp only [Except.ok.injEq, Prod.mk.injEq] at h
                obtain ⟨hst, -⟩ := h
                obtain ⟨-, u2, hu2, -, hst1⟩ :=
                  subtract_user_balance_spec _ _ _ _ _ hsb
                have huu : u2 = u := by
                  rw [show st.users sub.user_id = get_user_by_id st sub.user_id from rfl,
                      hu] at hu2
                  exact (Option.some_injective _ hu2).symm
                rw [huu] at hst1
                subst hst1
                refine ⟨u, t, rfl, rfl, by omega, hb, by simpa using htx, ?_⟩
                exact hst.symm

theorem suspended_inversion (now : Nat) (st : DBState) (sub : Subscription) (env : ChargeEnv)
    (st' : DBState) (h : process_single_charge now st sub env = .ok (st', .suspended)) :
    st' = suspend_daily_subscription_insufficient_balance st sub.id ∧
    ∃ u t, get_user_by_id st sub.user_id = some u ∧
      sub.tariff_id.bind (get_tariff_by_id st) = some t ∧
      0 < t.daily_price_kopeks ∧
      u.balance_kopeks < t.daily_price_kopeks * get_device_count u env.oracle := by
  unfold process_single_charge at h
  by_cases he : env.unitExn
  · simp [he] at h
  · rw [if_neg he] at h
    cases hu : get_user_by_id st sub.user_id with
    | none => rw [hu] at h; simp at h
    | some u =>
      rw [hu] at h
      cases ht : sub.tariff_id.bind (get_tariff_by_id st) with
      | none => rw [ht] at h; simp at h
      | some t =>
        rw [ht] at h
        simp only [] at h
        by_cases hp : t.daily_price_kopeks ≤ 0
        · rw [if_pos hp] at h; simp at h
        · rw [if_neg hp] at h
          by_cases hb : u.balance_kopeks < t.daily_price_kopeks * get_device_count u env.oracle
          · rw [if_pos hb] at h
            simp only [Except.ok.injEq, Prod.mk.injEq] at h
            exact ⟨h.1.symm, u, t, rfl, rfl, by omega, hb⟩
          · rw [if_neg hb] at h
            cases hsb : subtract_user_balance st sub.user_id
                (t.daily_price_kopeks * get_device_count u env.oracle) env.debitOk with
            | none => rw [hsb] at h; simp at h
            | some st1 =>
              rw [hsb] at h
              simp only [] at h
              by_cases htx : env.txnExn
              · rw [if_pos htx] at h; simp at h
              · rw [if_neg htx] at h; simp at h

theorem error_inversion (now : Nat) (st : DBState) (sub : Subscription) (env : ChargeEnv)
    (st' : DBState) (h : process_single_charge now st sub env = .ok (st', .error)) :
    st'.subscriptions = st.subscriptions := by
  unfold process_single_charge at h
  by_cases he : env.unitExn
  · simp [he] at h
  · rw [if_neg he] at h
    cases hu : get_user_by_id st sub.user_id with
    | none => rw [hu] at h; simp at h; rw [← h]
    | some u =>
      rw [hu] at h
      cases ht : sub.tariff_id.bind (get_tariff_by_id st) with
      | none => rw [ht] at h; simp at h; rw [← h]
      | some t =>
        rw [ht] at h
        simp only [] at h
        by_cases hp : t.daily_price_kopeks ≤ 0
        · rw [if_pos hp] at h; simp at h; rw [← h]
        · rw [if_neg hp] at h
          by_cases hb : u.balance_kopeks < t.daily_price_kopeks * get_device_count u env.oracle
          · rw [if_pos hb] at h; simp at h
          · rw [if_neg hb] at h
            cases hsb : subtract_user_balance st sub.user_id
                (t.daily_price_kopeks * get_device_count u env.oracle) env.debitOk with
            | none => rw [hsb] at h; simp at h; rw [← h]
            | some st1 =>
              rw [hsb] at h
              simp only [] at h
              obtain ⟨-, u2, -, -, hst1⟩ := subtract_user_balance_spec _ _ _ _ _ hsb
              by_cases htx : env.txnExn
              · rw [if_pos htx] at h
                simp only [Except.ok.injEq, Prod.mk.injEq] at h
                rw [← h.1, hst1]
                rfl
              · rw [if_neg htx] at h; simp at h

theorem getSubscriptionById_suspend (st : DBState) (sid : Nat) (sub : Subscription)
    (h : getSubscriptionById st sid = some sub) :
    getSubscriptionById (suspend_daily_subscription_insufficient_balance st sid) sid =
      some { sub with status := .disabled } := by
  unfold suspend_daily_subscription_insufficient_balance
  rw [getSubscriptionById_update st sid sid
    (fun s => { s with status := .disabled }) (fun _ => rfl), h]
  simp [getSubscriptionById_mem st sid sub h]

theorem getSubscriptionById_charge_time (st : DBState) (sid : Nat) (now : Nat)
    (sub : Subscription) (h : getSubscriptionById st sid = some sub) :
    getSubscriptionById (update_daily_charge_time st sid now) sid =
      some { sub with last_charge_at := some now,
                      next_charge_at := now + daily_cycle_seconds } := by
  unfold update_daily_charge_time
  rw [getSubscriptionById_update st sid sid
    (fun s => { s with last_charge_at := some now,
                       next_charge_at := now + daily_cycle_seconds }) (fun _ => rfl), h]
  simp [getSubscriptionById_mem st sid sub h]

/-- C2: every decay pass preserves the invariant
`traffic_limit ≥ purchased_traffic ≥ 0` on the subscription it processes —
if the stored fields satisfy the invariant before
`reset_subscription_traffic`, the persisted fields satisfy it after — and
over any sequence of decay passes (any lot expirations) the stored
`purchased_traffic` of every subscription never becomes negative. -/
theorem claim_c2_invariant_preserved (now : Nat) (st : DBState) (sid : Nat)
    (ps : List TrafficPurchase) (sub : Subscription)
    (hsub : getSubscriptionById st sid = some sub)
    (_hnn : 0 ≤ purchasedD sub) (_hinv : purchasedD sub ≤ sub.traffic_limit_gb) :
    (∃ sub',
      getSubscriptionById (reset_subscription_traffic now st sid ps).1 sid = some sub' ∧
      0 ≤ purchasedD sub' ∧ purchasedD sub' ≤ sub'.traffic_limit_gb) ∧
    (∀ (passes : List (Nat × ((Nat → Bool) × Bool))) (st0 : DBState),
      allPurchasedNonneg st0 → allPurchasedNonneg (decaySequence passes st0)) := by
  constructor
  · obtain ⟨sub', hfind, hpur, hlim, -, -, -⟩ := reset_spec now st sid ps sub hsub
    have hbase : 0 ≤ (computeBaseLimit st sub (sub.purchased_traffic_gb.getD 0)).1 :=
      computeBaseLimit_nonneg st sub (sub.purchased_traffic_gb.getD 0)
    refine ⟨sub', hfind, ?_, ?_⟩
    · simp only [purchasedD, hpur, Option.getD_some]
      omega
    · simp only [purchasedD, hpur, Option.getD_some, hlim]
      omega
  · exact fun passes st0 h => decaySequence_preserves_nonneg passes st0 h

/-- C2 witness: the invariant-preservation theorem applied to a concrete
subscription with limit 50 and purchased 20 and one expired 20 GB lot. -/
theorem claim_c2_witness :
    (∃ sub',
      getSubscriptionById (reset_subscription_traffic 100 st_c2 1 [lot_c2]).1 1 = some sub' ∧
      0 ≤ purchasedD sub' ∧ purchasedD sub' ≤ sub'.traffic_limit_gb) ∧
    (∀ (passes : List (Nat × ((Nat → Bool) × Bool))) (st0 : DBState),
      allPurchasedNonneg st0 → allPurchasedNonneg (decaySequence passes st0)) :=
  claim_c2_invariant_preserved 100 st_c2 1 [lot_c2] sub_c2 (by decide) (by decide) (by decide)

/-- C3: for every subscription processed by the decay pass, the expired
total is clamped to the stored purchased traffic (with a clamp warning
logged when it exceeds it), all expired lots passed to the group are
deleted, and the persisted fields are exactly
`new_purchased = purchased - clamped_total` and
`new_limit = base_limit + new_purchased`; concretely, scenario C
(limit 50, purchased 20, one 20 GB expired lot) persists limit 30 and
purchased 0 with the lot deleted, and scenario D (stored purchased 10)
reclaims only 10 GB, leaving purchased 0, with the warning logged. -/
theorem claim_c3_clamped_decay (now : Nat) (st : DBState) (sid : Nat)
    (ps : List TrafficPurchase) (sub : Subscription)
    (hsub : getSubscriptionById st sid = some sub) :
    (∃ sub',
      getSubscriptionById (reset_subscription_traffic now st sid ps).1 sid = some sub' ∧
      sub'.purchased_traffic_gb =
        some (purchasedD sub - min ((ps.map (fun p => p.traffic_gb)).sum) (purchasedD sub)) ∧
      sub'.traffic_limit_gb =
        (computeBaseLimit st sub (purchasedD sub)).1 +
          (purchasedD sub - min ((ps.map (fun p => p.traffic_gb)).sum) (purchasedD sub))) ∧
    (reset_subscription_traffic now st sid ps).1.purchases =
      st.purchases.filter (fun p => !decide (p ∈ ps)) ∧
    (purchasedD sub < (ps.map (fun p => p.traffic_gb)).sum →
      ResetEvent.clampWarning ∈ (reset_subscription_traffic now st sid ps).2) ∧
    ((getSubscriptionById (reset_subscription_traffic 100 st_c3 1 [lot_c2]).1 1).map
        (fun s => (s.traffic_limit_gb, s.purchased_traffic_gb)) = some (30, some 0) ∧
      (reset_subscription_traffic 100 st_c3 1 [lot_c2]).1.purchases = []) ∧
    ((getSubscriptionById (reset_subscription_traffic 100 st_c3d 1 [lot_c2]).1 1).map
        (fun s => (s.traffic_limit_gb, s.purchased_traffic_gb)) = some (40, some 0) ∧
      ResetEvent.clampWarning ∈ (reset_subscription_traffic 100 st_c3d 1 [lot_c2]).2) := by
  obtain ⟨sub', hfind, hpur, hlim, -, hdel, hev⟩ := reset_spec now st sid ps sub hsub
  refine ⟨⟨sub', hfind, ?_, ?_⟩, hdel, ?_, by decide, by decide⟩
  · simpa [purchasedD] using hpur
  · simpa [purchasedD] using hlim
  · intro hclamp
    rw [hev]
    simp only [purchasedD] at hclamp
    rw [if_pos hclamp]
    simp

/-- C3 witness: the clamped-decay theorem applied to the scenario C
fixture. -/
theorem claim_c3_witness :
    (∃ sub',
      getSubscriptionById (reset_subscription_traffic 100 st_c3 1 [lot_c2]).1 1 = some sub' ∧
      sub'.purchased_traffic_gb =
        some (purchasedD sub_c2 -
          min (([lot_c2].map (fun p => p.traffic_gb)).sum) (purchasedD sub_c2)) ∧
      sub'.traffic_limit_gb =
        (computeBaseLimit st_c3 sub_c2 (purchasedD sub_c2)).1 +
          (purchasedD sub_c2 -
            min (([lot_c2].map (fun p => p.traffic_gb)).sum) (purchasedD sub_c2))) ∧
    (reset_subscription_traffic 100 st_c3 1 [lot_c2]).1.purchases =
      st_c3.purchases.filter (fun p => !decide (p ∈ [lot_c2])) := by
  have h := claim_c3_clamped_decay 100 st_c3 1 [lot_c2] sub_c2 (by decide)
  exact ⟨h.1, h.2.1⟩

/-- C8 counterexample: the claim asserts that a negative base limit always
triggers the fallback to the tariff's base allotment with a warning; on a
subscription whose tariff does not resolve (here: no tariff reference), the
base limit is negative (0 - 5 = -5), yet no fallback warning is produced
and the base limit used is just the zero clamp. -/
theorem claim_c8_counterexample :
    getSubscriptionById st_c8 1 = some sub_c8 ∧
    sub_c8.traffic_limit_gb - purchasedD sub_c8 < 0 ∧
    ResetEvent.baseFallbackWarning ∉ (reset_subscription_traffic 100 st_c8 1 [lot_c2]).2 ∧
    (computeBaseLimit st_c8 sub_c8 (purchasedD sub_c8)).1 = 0 := by
  refine ⟨by decide, by decide, ?_, by decide⟩
  decide

/-- C8 (amended): when the subscription's tariff reference resolves to a
stored tariff and the computed base limit is negative, the processor falls
back to the tariff's configured base allotment and logs the fallback
warning; when no tariff resolves, no fallback occurs; in every case the
base limit actually used is clamped to be nonnegative. -/
theorem claim_c8_base_fallback (now : Nat) (st : DBState) (sid : Nat)
    (ps : List TrafficPurchase) (sub : Subscription) (tid : Nat) (t : Tariff)
    (hsub : getSubscriptionById st sid = some sub)
    (htid : sub.tariff_id = some tid)
    (ht : get_tariff_by_id st tid = some t)
    (hneg : sub.traffic_limit_gb - purchasedD sub < 0) :
    computeBaseLimit st sub (purchasedD sub) =
      (max 0 (t.traffic_limit_gb.getD 0), [ResetEvent.baseFallbackWarning]) ∧
    ResetEvent.baseFallbackWarning ∈ (reset_subscription_traffic now st sid ps).2 ∧
    (∀ (st2 : DBState) (sub2 : Subscription) (p2 : Int),
      0 ≤ (computeBaseLimit st2 sub2 p2).1) := by
  have hc : computeBaseLimit st sub (purchasedD sub) =
      (max 0 (t.traffic_limit_gb.getD 0), [ResetEvent.baseFallbackWarning]) := by
    unfold computeBaseLimit
    rw [htid]
    simp only []
    rw [ht]
    simp only []
    rw [if_pos (by simpa [purchasedD] using hneg)]
  refine ⟨hc, ?_, fun st2 sub2 p2 => computeBaseLimit_nonneg st2 sub2 p2⟩
  obtain ⟨-, -, -, -, -, -, hev⟩ := reset_spec now st sid ps sub hsub
  rw [hev]
  have : (computeBaseLimit st sub (sub.purchased_traffic_gb.getD 0)).2 =
      [ResetEvent.baseFallbackWarning] := by
    have := congrArg Prod.snd hc
    simpa [purchasedD] using this
  rw [this]
  simp

/-- C8 witness: the amended fallback theorem applied to a subscription with
limit 0 and purchased 5 whose tariff resolves with a 7 GB base allotment. -/
theorem claim_c8_witness :
    computeBaseLimit st_c8w sub_c8w (purchasedD sub_c8w) =
      (max 0 ((t_c8w : Tariff).traffic_limit_gb.getD 0), [ResetEvent.baseFallbackWarning]) ∧
    ResetEvent.baseFallbackWarning ∈ (reset_subscription_traffic 100 st_c8w 1 [lot_c2]).2 ∧
    (∀ (st2 : DBState) (sub2 : Subscription) (p2 : Int),
      0 ≤ (computeBaseLimit st2 sub2 p2).1) :=
  claim_c8_base_fallback 100 st_c8w 1 [lot_c2] sub_c8w 2 t_c8w
    (by decide) (by decide) (by rfl) (by decide)

/-- C9: a group of expired lots whose owning subscription row does not
exist produces no state change at all — the group processing returns the
state unchanged, the lots are not deleted and are selected again by the
next pass — yet with no exceptions the pass still counts every checked lot,
orphans included, in the `reset` counter, so `reset = checked`. -/
theorem claim_c9_orphan_lots (st : DBState) (now : Nat) (env : Nat → Bool)
    (lot : TrafficPurchase)
    (hmem : lot ∈ st.purchases) (hexp : lot.expires_at ≤ now)
    (horph : getSubscriptionById st lot.subscription_id = none)
    (henv : ∀ k, env k = false) :
    (∀ (st2 : DBState) (ps : List TrafficPurchase),
      getSubscriptionById st2 lot.subscription_id = none →
      reset_subscription_traffic now st2 lot.subscription_id ps = (st2, [])) ∧
    lot ∈ (process_traffic_resets st now env false).1.purchases ∧
    lot ∈ expiredLots (process_traffic_resets st now env false).1 now ∧
    (process_traffic_resets st now env false).2.reset =
      (process_traffic_resets st now env false).2.checked ∧
    (process_traffic_resets st now env false).2.checked = (expiredLots st now).length ∧
    lot ∈ expiredLots st now := by
  have hlot : lot ∈ expiredLots st now := by
    unfold expiredLots
    exact List.mem_filter.mpr ⟨hmem, by simpa using hexp⟩
  have hproc : process_traffic_resets st now env false =
      resetLoop now env (groupBySubscription (expiredLots st now)) st
        ⟨(expiredLots st now).length, 0, 0⟩ := by
    unfold process_traffic_resets
    simp
  have hsurv : lot ∈ (process_traffic_resets st now env false).1.purchases := by
    rw [hproc]
    apply resetLoop_keeps now env lot _ st _ _ hmem
    intro g hg
    by_cases hl : lot ∈ g.2
    · have hkey : lot.subscription_id = g.1 :=
        (groupBy_wf (expiredLots st now) g hg).2 lot hl
      rw [← hkey]
      exact Or.inl horph
    · exact Or.inr hl
  have hfilters : (groupBySubscription (expiredLots st now)).filter
      (fun g => !env g.1) = groupBySubscription (expiredLots st now) := by
    apply List.filter_eq_self.mpr
    intro g _
    simp [henv g.1]
  have hfilter2 : (groupBySubscription (expiredLots st now)).filter
      (fun g => env g.1) = [] := by
    apply List.filter_eq_nil_iff.mpr
    intro g _
    simp [henv g.1]
  refine ⟨fun st2 ps h => reset_none now st2 lot.subscription_id ps h, hsurv, ?_, ?_, ?_, hlot⟩
  · unfold expiredLots
    exact List.mem_filter.mpr ⟨hsurv, by simpa using hexp⟩
  · rw [hproc, resetLoop_stats now env _ st _ 0 0, hfilters, groupBy_sumSizes]
    simp
  · rw [hproc, resetLoop_stats now env _ st _ 0 0]

/-- C9 witness: the orphan-lot theorem applied to a database holding one
expired lot and no subscription rows. -/
theorem claim_c9_witness :
    (∀ (st2 : DBState) (ps : List TrafficPurchase),
      getSubscriptionById st2 lot_c2.subscription_id = none →
      reset_subscription_traffic 100 st2 lot_c2.subscription_id ps = (st2, [])) ∧
    lot_c2 ∈ (process_traffic_resets st_c5 100 (fun _ => false) false).1.purchases ∧
    lot_c2 ∈ expiredLots (process_traffic_resets st_c5 100 (fun _ => false) false).1 100 ∧
    (process_traffic_resets st_c5 100 (fun _ => false) false).2.reset =
      (process_traffic_resets st_c5 100 (fun _ => false) false).2.checked ∧
    (process_traffic_resets st_c5 100 (fun _ => false) false).2.checked =
      (expiredLots st_c5 100).length ∧
    lot_c2 ∈ expiredLots st_c5 100 :=
  claim_c9_orphan_lots st_c5 100 (fun _ => false) lot_c2
    (by decide) (by decide) (by decide) (fun _ => rfl)

/-- C5 counterexample: the claim's justification asserts that the first run
deletes all expired lots so that the second run's selection is empty; with
one expired lot whose subscription row does not exist, the first nominal
run deletes nothing and the second run selects (and checks) the same lot
again — its selection is not empty. -/
theorem claim_c5_counterexample :
    (process_traffic_resets st_c5 100 (fun _ => false) false).2.checked = 1 ∧
    expiredLots (process_traffic_resets st_c5 100 (fun _ => false) false).1 100 ≠ [] ∧
    (process_traffic_resets (process_traffic_resets st_c5 100 (fun _ => false) false).1
      100 (fun _ => false) false).2.checked = 1 := by
  refine ⟨by decide, by decide, by decide⟩

/-- C5 (amended): running the decay processor twice in succession, the
first run nominal (no per-group exceptions) and no lot newly expired
between the runs, leaves the whole database state — in particular every
subscription's `traffic_limit` and `purchased_traffic` — unchanged on the
second run: for subscriptions that exist the first run deleted their
expired lots, and lots referencing missing subscriptions are reselected
but produce no state change. -/
theorem claim_c5_decay_idempotent (st : DBState) (now now2 : Nat) (env1 : Nat → Bool)
    (henv : ∀ k, env1 k = false)
    (hnonew : ∀ p ∈ (process_traffic_resets st now env1 false).1.purchases,
      p.expires_at ≤ now2 → p.expires_at ≤ now)
    (env2 : Nat → Bool) (sf2 : Bool) :
    (process_traffic_resets (process_traffic_resets st now env1 false).1 now2 env2 sf2).1 =
      (process_traffic_resets st now env1 false).1 := by
  set st1 := (process_traffic_resets st now env1 false).1 with hst1
  have hproc : process_traffic_resets st now env1 false =
      resetLoop now env1 (groupBySubscription (expiredLots st now)) st
        ⟨(expiredLots st now).length, 0, 0⟩ := by
    unfold process_traffic_resets
    simp
  by_cases hsf : sf2 = true
  · subst hsf
    unfold process_traffic_resets
    simp
  · have hsf2 : sf2 = false := by simpa using hsf
    subst hsf2
    unfold process_traffic_resets
    simp only [Bool.false_eq_true, if_false]
    apply resetLoop_all_orphans
    intro g hg
    obtain ⟨hne, hkeys⟩ := groupBy_wf (expiredLots st1 now2) g hg
    obtain ⟨q, hq⟩ := List.exists_mem_of_ne_nil g.2 hne
    have hkey : q.subscription_id = g.1 := hkeys q hq
    have hq2 : q ∈ expiredLots st1 now2 :=
      (groupBy_mem (expiredLots st1 now2) q).mp ⟨g, hg, hq⟩
    have hqmem1 : q ∈ st1.purchases := (List.mem_filter.mp hq2).1
    have hqexp2 : q.expires_at ≤ now2 := by
      have := (List.mem_filter.mp hq2).2
      simpa using this
    have hqexp : q.expires_at ≤ now := hnonew q hqmem1 hqexp2
    have hqmem : q ∈ st.purchases := by
      have := hqmem1
      rw [hst1, hproc] at this
      exact resetLoop_purchases_subset now env1 q _ st _ this
    have hqlots : q ∈ expiredLots st now := by
      unfold expiredLots
      exact List.mem_filter.mpr ⟨hqmem, by simpa using hqexp⟩
    obtain ⟨g1, hg1, hqg1⟩ := (groupBy_mem (expiredLots st now) q).mpr hqlots
    have hkey1 : q.subscription_id = g1.1 :=
      (groupBy_wf (expiredLots st now) g1 hg1).2 q hqg1
    rw [← hkey]
    by_cases hcase : getSubscriptionById st q.subscription_id = none
    · rw [hst1, hproc]
      exact (resetLoop_none_iff now env1 q.subscription_id _ st _).mpr hcase
    · exfalso
      have hg1mem : (g1.1, g1.2) ∈ groupBySubscription (expiredLots st now) := by
        simpa using hg1
      have hdel : q ∉ st1.purchases := by
        rw [hst1, hproc]
        exact resetLoop_deletes now env1 henv q _ st _ g1.1 g1.2 hg1mem
          (by rw [← hkey1]; exact hcase) hqg1
      exact hdel hqmem1

/-- C5 witness: the amended idempotence theorem applied to the orphan-lot
fixture at the same instant for both runs. -/
theorem claim_c5_witness :
    (process_traffic_resets (process_traffic_resets st_c5 100 (fun _ => false) false).1
      100 (fun _ => false) false).1 =
      (process_traffic_resets st_c5 100 (fun _ => false) false).1 :=
  claim_c5_decay_idempotent st_c5 100 100 (fun _ => false) (fun _ => rfl)
    (by decide) (fun _ => false) false

/-- C1: for a due subscription whose user and tariff resolve and whose
per-device daily price is positive, under a nominal environment (atomic
debit works, no unexpected exception) the charge step is a dichotomy on the
balance: if the balance is below `charge = daily_price_per_device *
device_count` the subscription's status is set to the disabled state
(distinct from expired), balances and the ledger are untouched and the
outcome is `suspended`; otherwise the balance is decremented by exactly
`charge`, a ledger transaction over `charge` is appended and the outcome is
`charged`. -/
theorem claim_c1_charge_dichotomy (now : Nat) (st : DBState) (sub : Subscription)
    (env : ChargeEnv) (u : User) (t : Tariff)
    (hu : get_user_by_id st sub.user_id = some u)
    (ht : sub.tariff_id.bind (get_tariff_by_id st) = some t)
    (hp : 0 < t.daily_price_kopeks)
    (hsub : getSubscriptionById st sub.id = some sub)
    (henv : env.nominal) :
    (u.balance_kopeks < t.daily_price_kopeks * get_device_count u env.oracle →
      process_single_charge now st sub env =
        .ok (suspend_daily_subscription_insufficient_balance st sub.id, .suspended) ∧
      (∃ sub', getSubscriptionById
          (suspend_daily_subscription_insufficient_balance st sub.id) sub.id = some sub' ∧
        sub'.status = SubscriptionStatus.disabled ∧
        sub'.status ≠ SubscriptionStatus.expired) ∧
      (suspend_daily_subscription_insufficient_balance st sub.id).users = st.users ∧
      (suspend_daily_subscription_insufficient_balance st sub.id).transactions =
        st.transactions) ∧
    (t.daily_price_kopeks * get_device_count u env.oracle ≤ u.balance_kopeks →
      ∃ st', process_single_charge now st sub env = .ok (st', .charged) ∧
        get_user_by_id st' sub.user_id =
          some { u with balance_kopeks :=
            u.balance_kopeks - t.daily_price_kopeks * get_device_count u env.oracle } ∧
        st'.transactions = st.transactions ++
          [{ user_id := sub.user_id, ttype := .subscription_payment,
             amount_kopeks := t.daily_price_kopeks * get_device_count u env.oracle,
             payment_method := .manual }]) := by
  obtain ⟨hok, htx, hux⟩ := henv
  constructor
  · intro hb
    have hrun : process_single_charge now st sub env =
        .ok (suspend_daily_subscription_insufficient_balance st sub.id, .suspended) := by
      unfold process_single_charge
      rw [hux]
      simp only [Bool.false_eq_true, if_false]
      rw [hu, ht]
      simp only []
      rw [if_neg (by omega : ¬ t.daily_price_kopeks ≤ 0), if_pos hb]
    refine ⟨hrun, ?_, rfl, rfl⟩
    exact ⟨{ sub with status := .disabled },
      getSubscriptionById_suspend st sub.id sub hsub, rfl, by simp⟩
  · intro hb
    have hsb : subtract_user_balance st sub.user_id
        (t.daily_price_kopeks * get_device_count u env.oracle) env.debitOk =
        some (debitedState st sub.user_id
          (t.daily_price_kopeks * get_device_count u env.oracle) u) := by
      unfold subtract_user_balance
      rw [hok]
      simp only [if_true]
      rw [show st.users sub.user_id = some u from hu]
      simp only []
      rw [if_pos hb]
      rfl
    have hrun : process_single_charge now st sub env =
        .ok (update_daily_charge_time
          (create_transaction
            (debitedState st sub.user_id
              (t.daily_price_kopeks * get_device_count u env.oracle) u)
            sub.user_id (t.daily_price_kopeks * get_device_count u env.oracle))
          sub.id now, .charged) := by
      unfold process_single_charge
      rw [hux]
      simp only [Bool.false_eq_true, if_false]
      rw [hu, ht]
      simp only []
      rw [if_neg (by omega : ¬ t.daily_price_kopeks ≤ 0),
          if_neg (by omega : ¬ u.balance_kopeks <
            t.daily_price_kopeks * get_device_count u env.oracle), hsb]
      simp only []
      rw [htx]
      simp only [Bool.false_eq_true, if_false]
    refine ⟨_, hrun, ?_, rfl⟩
    show (debitedState st sub.user_id
      (t.daily_price_kopeks * get_device_count u env.oracle) u).users sub.user_id = _
    unfold debitedState
    simp

/-- C1 witness: the dichotomy theorem applied to an account with balance
500, price 100 per device and 2 reported devices (spec scenario A): the
debit branch fires, the balance must drop to 300 and a 200-kopek ledger
entry is created. -/
theorem claim_c1_witness :
    ∃ st', process_single_charge 0 st_c1 sub_c1 env_c1 = .ok (st', .charged) ∧
      get_user_by_id st' sub_c1.user_id =
        some { u_c1 with balance_kopeks :=
          u_c1.balance_kopeks - t_c1.daily_price_kopeks * get_device_count u_c1 env_c1.oracle } ∧
      st'.transactions = st_c1.transactions ++
        [{ user_id := sub_c1.user_id, ttype := .subscription_payment,
           amount_kopeks := t_c1.daily_price_kopeks * get_device_count u_c1 env_c1.oracle,
           payment_method := .manual }] :=
  (claim_c1_charge_dichotomy 0 st_c1 sub_c1 env_c1 u_c1 t_c1 rfl rfl (by decide)
    (by decide) ⟨rfl, rfl, rfl⟩).2 (by decide)

/-- C4: for a due subscription stored in the database, the next-charge
timestamp advances exactly when the debit succeeds: a `charged` outcome
leaves the stored subscription with a strictly greater next-charge
timestamp, while `suspended` and `error` outcomes (missing user or tariff,
bad price, debit failure, exception after the debit) leave it unchanged —
the subscription remains due. -/
theorem claim_c4_next_charge_advance (now : Nat) (st : DBState) (sub : Subscription)
    (env : ChargeEnv)
    (hsub : getSubscriptionById st sub.id = some sub)
    (hdue : sub.next_charge_at ≤ now) :
    (∀ st', process_single_charge now st sub env = .ok (st', .charged) →
      ∃ sub', getSubscriptionById st' sub.id = some sub' ∧
        sub.next_charge_at < sub'.next_charge_at) ∧
    (∀ st' oc, process_single_charge now st sub env = .ok (st', oc) →
      (oc = .suspended ∨ oc = .error) →
      ∃ sub', getSubscriptionById st' sub.id = some sub' ∧
        sub'.next_charge_at = sub.next_charge_at) := by
  constructor
  · intro st' hres
    obtain ⟨u, t, -, -, -, -, -, hst⟩ := charged_inversion now st sub env st' hres
    subst hst
    have hbase : getSubscriptionById
        (create_transaction
          (debitedState st sub.user_id
            (t.daily_price_kopeks * get_device_count u env.oracle) u)
          sub.user_id (t.daily_price_kopeks * get_device_count u env.oracle)) sub.id =
        some sub := hsub
    refine ⟨_, getSubscriptionById_charge_time _ sub.id now sub hbase, ?_⟩
    show sub.next_charge_at < now + daily_cycle_seconds
    unfold daily_cycle_seconds
    omega
  · intro st' oc hres hoc
    rcases hoc with hoc | hoc
    · subst hoc
      obtain ⟨hst, -⟩ := suspended_inversion now st sub env st' hres
      subst hst
      exact ⟨_, getSubscriptionById_suspend st sub.id sub hsub, rfl⟩
    · subst hoc
      have hsubs : st'.subscriptions = st.subscriptions :=
        error_inversion now st sub env st' hres
      refine ⟨sub, ?_, rfl⟩
      unfold getSubscriptionById at hsub ⊢
      rw [hsubs]
      exact hsub

/-- C4 witness: the advance-iff-debit theorem applied to the scenario A
fixture; the charged branch yields a strictly larger timestamp and a
suspended run on a drained account leaves it unchanged. -/
theorem claim_c4_witness :
    ∃ sub', getSubscriptionById
        (update_daily_charge_time
          (create_transaction
            (debitedState st_c1 sub_c1.user_id
              (t_c1.daily_price_kopeks * get_device_count u_c1 env_c1.oracle) u_c1)
            sub_c1.user_id (t_c1.daily_price_kopeks * get_device_count u_c1 env_c1.oracle))
          sub_c1.id 100) sub_c1.id = some sub' ∧
      sub_c1.next_charge_at < sub'.next_charge_at := by
  have h := claim_c4_next_charge_advance 100 st_c1 sub_c1 env_c1 (by decide) (by decide)
  apply h.1
  rfl

/-- C6: the device count used for a charge is at least 1: a missing
provisioning identity, any oracle failure, and a reported count below 1 all
yield exactly 1; and every `charged` outcome creates a ledger entry whose
amount is the per-device daily price multiplied by that device count. -/
theorem claim_c6_device_floor (u : User) (o : OracleResult) :
    1 ≤ get_device_count u o ∧
    get_device_count u .failure = 1 ∧
    (u.remnawave_uuid = none → get_device_count u o = 1) ∧
    (∀ n : Int, n < 1 → get_device_count u (.reported n) = 1) ∧
    (∀ (now : Nat) (st : DBState) (sub : Subscription) (env : ChargeEnv) (st' : DBState),
      process_single_charge now st sub env = .ok (st', .charged) →
      ∃ u2 t, get_user_by_id st sub.user_id = some u2 ∧
        sub.tariff_id.bind (get_tariff_by_id st) = some t ∧
        st'.transactions = st.transactions ++
          [{ user_id := sub.user_id, ttype := .subscription_payment,
             amount_kopeks := t.daily_price_kopeks * get_device_count u2 env.oracle,
             payment_method := .manual }]) := by
  refine ⟨?_, ?_, ?_, ?_, ?_⟩
  · unfold get_device_count
    cases u.remnawave_uuid
    · simp
    · cases o
      · simp
      · simp
  · unfold get_device_count
    cases u.remnawave_uuid <;> simp
  · intro hnone
    unfold get_device_count
    rw [hnone]
  · intro n hn
    unfold get_device_count
    cases u.remnawave_uuid
    · simp
    · simp
      omega
  · intro now st sub env st' hres
    obtain ⟨u2, t, hu2, ht, -, -, -, hst⟩ := charged_inversion now st sub env st' hres
    subst hst
    exact ⟨u2, t, hu2, ht, rfl⟩

/-- C6 witness: the floor theorem applied to an account with a
provisioning identity and an oracle reporting 0 devices; each inner
hypothesis is discharged at a concrete input. -/
theorem claim_c6_witness :
    1 ≤ get_device_count u_c1 (.reported 0) ∧
    get_device_count u_c1 .failure = 1 ∧
    get_device_count u_c1 (.reported 0) = 1 ∧
    ∃ u2 t, get_user_by_id st_c1 sub_c1.user_id = some u2 ∧
      sub_c1.tariff_id.bind (get_tariff_by_id st_c1) = some t ∧
      (update_daily_charge_time
        (create_transaction
          (debitedState st_c1 sub_c1.user_id
            (t_c1.daily_price_kopeks * get_device_count u_c1 env_c1.oracle) u_c1)
          sub_c1.user_id (t_c1.daily_price_kopeks * get_device_count u_c1 env_c1.oracle))
        sub_c1.id 0).transactions = st_c1.transactions ++
        [{ user_id := sub_c1.user_id, ttype := .subscription_payment,
           amount_kopeks := t.daily_price_kopeks * get_device_count u2 env_c1.oracle,
           payment_method := .manual }] := by
  have h := claim_c6_device_floor u_c1 (.reported 0)
  exact ⟨h.1, h.2.1, h.2.2.2.1 0 (by decide), h.2.2.2.2 0 st_c1 sub_c1 env_c1 _ rfl⟩

/-- C7: no error escapes its unit and the batches always return the
aggregate counters: in `process_daily_charges` every due subscription
contributes exactly one of `charged`, `suspended`, `errors` (so their sum
equals `checked`, the size of the due selection), and in
`process_traffic_resets` the `reset` counter plus the lots of the
exception-hit groups account for every checked lot while `errors` counts
exactly the exception-hit groups; both functions are total, so no
exception reaches the caller. -/
theorem claim_c7_error_isolation (st : DBState) (now : Nat) (env : Nat → ChargeEnv)
    (sf : Bool) (st2 : DBState) (now2 : Nat) (env2 : Nat → Bool) (sf2 : Bool) :
    ((process_daily_charges st now env sf).2.charged +
        (process_daily_charges st now env sf).2.suspended +
        (process_daily_charges st now env sf).2.errors =
      (process_daily_charges st now env sf).2.checked) ∧
    (sf = false → (process_daily_charges st now env sf).2.checked =
      (get_daily_subscriptions_for_charge st now).length) ∧
    (sf2 = false →
      (process_traffic_resets st2 now2 env2 sf2).2.reset +
          sumSizes ((groupBySubscription (expiredLots st2 now2)).filter
            (fun g => env2 g.1)) =
        (process_traffic_resets st2 now2 env2 sf2).2.checked ∧
      (process_traffic_resets st2 now2 env2 sf2).2.errors =
        ((groupBySubscription (expiredLots st2 now2)).filter (fun g => env2 g.1)).length) := by
  refine ⟨?_, ?_, ?_⟩
  · by_cases hsf : sf = true
    · subst hsf
      unfold process_daily_charges
      simp
    · have hsf2 : sf = false := by simpa using hsf
      subst hsf2
      unfold process_daily_charges
      simp only [Bool.false_eq_true, if_false]
      have h := chargeLoop_counts now env (get_daily_subscriptions_for_charge st now) st
        (get_daily_subscriptions_for_charge st now).length 0 0 0
      rw [h.1, h.2]
      omega
  · intro hsf
    subst hsf
    unfold process_daily_charges
    simp only [Bool.false_eq_true, if_false]
    exact (chargeLoop_counts now env (get_daily_subscriptions_for_charge st now) st
      (get_daily_subscriptions_for_charge st now).length 0 0 0).1
  · intro hsf
    subst hsf
    unfold process_traffic_resets
    simp only [Bool.false_eq_true, if_false]
    rw [resetLoop_stats now2 env2 _ st2 _ 0 0]
    constructor
    · simp only []
      rw [Nat.zero_add, Nat.add_comm]
      rw [← sumSizes_filter_split (fun g => env2 g.1) (groupBySubscription (expiredLots st2 now2))]
      rw [groupBy_sumSizes]
    · simp

/-- C7 witness: the isolation counters theorem applied to the scenario A
fixture for charges and the orphan-lot fixture for resets, with the
selection-success hypotheses discharged. -/
theorem claim_c7_witness :
    ((process_daily_charges st_c1 100 (fun _ => env_c1) false).2.charged +
        (process_daily_charges st_c1 100 (fun _ => env_c1) false).2.suspended +
        (process_daily_charges st_c1 100 (fun _ => env_c1) false).2.errors =
      (process_daily_charges st_c1 100 (fun _ => env_c1) false).2.checked) ∧
    ((process_daily_charges st_c1 100 (fun _ => env_c1) false).2.checked =
      (get_daily_subscriptions_for_charge st_c1 100).length) ∧
    ((process_traffic_resets st_c5 100 (fun _ => false) false).2.reset +
        sumSizes ((groupBySubscription (expiredLots st_c5 100)).filter (fun _ => false)) =
      (process_traffic_resets st_c5 100 (fun _ => false) false).2.checked) := by
  have h := claim_c7_error_isolation st_c1 100 (fun _ => env_c1) false st_c5 100
    (fun _ => false) false
  exact ⟨h.1, h.2.1 rfl, (h.2.2 rfl).1⟩

theorem shouldExpire_iff (sub : Subscription) (now : Nat) :
    shouldExpire sub now = true ↔
      (sub.status = SubscriptionStatus.active ∧ ∃ d, sub.end_date = some d ∧ d ≤ now) := by
  unfold shouldExpire
  cases hd : sub.end_date with
  | none => simp
  | some d => simp

/-- C10: the middleware always invokes the wrapped handler (the handler
call is outside the `try`, so even a raising status check — modelled by
`commitRaises` — cannot prevent it); given a db session, a loaded user and
a subscription, the subscription status is changed from `active` to
`expired` (with `updated_at` set) exactly when its `end_date` is present
and at or before the current time; in every other case (no session, no
user, no subscription, other status, or future or absent `end_date`) the
data is left unchanged. -/
theorem claim_c10_middleware (now : Nat) (data : MWData) (commitRaises : Bool) :
    (subscriptionStatusMiddleware now data commitRaises).2 = true ∧
    (∀ u sub, data.db = true → data.db_user = some u → u.subscription = some sub →
      ((sub.status = SubscriptionStatus.active ∧
          ∃ d, sub.end_date = some d ∧ d ≤ now) →
        (subscriptionStatusMiddleware now data commitRaises).1 = mwExpired data u sub now) ∧
      (¬(sub.status = SubscriptionStatus.active ∧ ∃ d, sub.end_date = some d ∧ d ≤ now) →
        (subscriptionStatusMiddleware now data commitRaises).1 = data)) ∧
    ((data.db = false ∨ data.db_user = none ∨
        (∃ u, data.db_user = some u ∧ u.subscription = none)) →
      (subscriptionStatusMiddleware now data commitRaises).1 = data) := by
  refine ⟨rfl, ?_, ?_⟩
  · intro u sub hdb hu hs
    rcases data with ⟨db, duser⟩
    simp only [] at hdb hu
    subst hdb
    subst hu
    constructor
    · intro hcond
      have hse : shouldExpire sub now = true := (shouldExpire_iff sub now).mpr hcond
      unfold subscriptionStatusMiddleware
      simp only []
      rw [hs]
      simp only []
      rw [if_pos hse]
      rfl
    · intro hcond
      have hse : shouldExpire sub now = false := by
        rcases hb : shouldExpire sub now
        · rfl
        · exact absurd ((shouldExpire_iff sub now).mp hb) hcond
      unfold subscriptionStatusMiddleware
      simp only []
      rw [hs]
      simp only []
      rw [if_neg (by simp [hse])]
  · intro hother
    rcases data with ⟨db, duser⟩
    rcases hother with hdb | hdu | ⟨u, hu, hs⟩
    · simp only [] at hdb
      subst hdb
      rfl
    · simp only [] at hdu
      subst hdu
      unfold subscriptionStatusMiddleware
      rcases db <;> rfl
    · simp only [] at hu
      subst hu
      unfold subscriptionStatusMiddleware
      rcases db
      · rfl
      · simp only []
        rw [hs]

/-- C10 witness: the middleware theorem applied at time 100 to a user whose
active subscription ended at time 50: the handler flag is true and the
status is set to `expired`. -/
theorem claim_c10_witness :
    (subscriptionStatusMiddleware 100 data_c10 true).2 = true ∧
    (subscriptionStatusMiddleware 100 data_c10 true).1 =
      mwExpired data_c10 { id := 4, subscription := some { baseSub with end_date := some 50 } }
        { baseSub with end_date := some 50 } 100 := by
  have h := claim_c10_middleware 100 data_c10 true
  refine ⟨h.1, ?_⟩
  exact (h.2.1 { id := 4, subscription := some { baseSub with end_date := some 50 } }
    { baseSub with end_date := some 50 } rfl rfl rfl).1 (by decide)

end Telegabot
